import Mathlib

/-!
Verification development for the NFL stat-transformation pipeline
(`nfl_stats.py`, `int_stat_by_year.py`, `Python Code/namepositioncombo_percentage.py`,
`Python Code/aggregate_analysis.py`).

Python strings are modelled as lists of character codes (`PyStr := List Nat`),
so that Python's ASCII-range `str.upper`/`str.lower`/`str.strip` become pure
arithmetic on codes.  Numeric cell values are modelled as exact rationals;
pandas `NaN` is modelled as `Option.none`, and the IEEE outcomes of the
percentage-difference division (`NaN`, `+inf`, `-inf`) are modelled by the
`PFloat` type.  Fallible processing steps return `Except`/`Option`.
-/

namespace NFLStats

/-- Python string, as the list of character codes of its characters. -/
abbrev PyStr := List Nat

/-- Character codes of a Lean string literal, used to write `PyStr` literals. -/
def strCodes (s : String) : PyStr := s.data.map Char.toNat

/-- Python `str.isspace`-relevant codes stripped by `str.strip()`:
space, tab, newline, carriage return, vertical tab, form feed. -/
def pyIsSpace (n : Nat) : Bool :=
  decide (n = 32 ∨ n = 9 ∨ n = 10 ∨ n = 13 ∨ n = 11 ∨ n = 12)

/-- ASCII-range model of Python `str.upper` on one character code. -/
def pyUpperChar (n : Nat) : Nat := if 97 ≤ n ∧ n ≤ 122 then n - 32 else n

/-- ASCII-range model of Python `str.lower` on one character code. -/
def pyLowerChar (n : Nat) : Nat := if 65 ≤ n ∧ n ≤ 90 then n + 32 else n

/-- Model of Python `str.strip()`: drop leading and trailing whitespace. -/
def pyStrip (s : PyStr) : PyStr :=
  ((s.dropWhile pyIsSpace).reverse.dropWhile pyIsSpace).reverse

/-- Model of Python `str.upper()` (ASCII range). -/
def pyUpper (s : PyStr) : PyStr := s.map pyUpperChar

/-- Model of Python `str.lower()` (ASCII range). -/
def pyLower (s : PyStr) : PyStr := s.map pyLowerChar

/-! ### Position normalization (`standardize_position`, `int_stat_by_year.py` lines 11-66) -/

/-- Linebacker synonym set from `standardize_position`. -/
def lbSet : List PyStr :=
  [strCodes "LB", strCodes "OLB", strCodes "ILB", strCodes "MLB", strCodes "WLB",
   strCodes "WILL", strCodes "SLB", strCodes "SAM", strCodes "LILB", strCodes "LLB",
   strCodes "ROLB", strCodes "LOLB", strCodes "RLB", strCodes "MILB", strCodes "RILB"]

/-- Cornerback synonym set from `standardize_position`. -/
def cbSet : List PyStr :=
  [strCodes "CB", strCodes "NC", strCodes "NCB", strCodes "DC", strCodes "DCB",
   strCodes "DB", strCodes "RCB", strCodes "LCB"]

/-- Returner synonym set from `standardize_position`. -/
def retSet : List PyStr := [strCodes "RET", strCodes "KR", strCodes "PR"]

/-- Offensive-line synonym set from `standardize_position`. -/
def olSet : List PyStr :=
  [strCodes "T", strCodes "OT", strCodes "OG", strCodes "G", strCodes "C",
   strCodes "LG", strCodes "RG", strCodes "LT", strCodes "RT", strCodes "LS"]

/-- Defensive-line synonym set from `standardize_position`. -/
def dlSet : List PyStr :=
  [strCodes "DE", strCodes "DT", strCodes "NT", strCodes "LDT", strCodes "RDT",
   strCodes "LDE", strCodes "RDE"]

/-- Safety synonym set from `standardize_position`. -/
def sSet : List PyStr := [strCodes "FS", strCodes "SS"]

/-- Single-token identity sets from `standardize_position`. -/
def fbSet : List PyStr := [strCodes "FB"]

/-- Tight-end identity set from `standardize_position`. -/
def teSet : List PyStr := [strCodes "TE"]

/-- Kicker identity set from `standardize_position`. -/
def kSet : List PyStr := [strCodes "K"]

/-- Punter identity set from `standardize_position`. -/
def pSet : List PyStr := [strCodes "P"]

/-- Wide-receiver identity set from `standardize_position`. -/
def wrSet : List PyStr := [strCodes "WR"]

/-- Running-back identity set from `standardize_position`. -/
def rbSet : List PyStr := [strCodes "RB"]

/-- Quarterback identity set from `standardize_position`. -/
def qbSet : List PyStr := [strCodes "QB"]

/-- Embedding of `standardize_position` (`int_stat_by_year.py` lines 11-66):
strip and uppercase the raw token, look it up in the synonym sets in the
source's order, and return the original (stripped, uppercased) token when no
set contains it. -/
def standardize_position (s : PyStr) : PyStr :=
  let p := pyUpper (pyStrip s)
  if p ∈ lbSet then strCodes "LB"
  else if p ∈ cbSet then strCodes "CB"
  else if p ∈ retSet then strCodes "RET"
  else if p ∈ olSet then strCodes "OL"
  else if p ∈ dlSet then strCodes "DL"
  else if p ∈ sSet then strCodes "S"
  else if p ∈ fbSet then strCodes "FB"
  else if p ∈ teSet then strCodes "TE"
  else if p ∈ kSet then strCodes "K"
  else if p ∈ pSet then strCodes "P"
  else if p ∈ wrSet then strCodes "WR"
  else if p ∈ rbSet then strCodes "RB"
  else if p ∈ qbSet then strCodes "QB"
  else p

/-! ### Stat-profile registry (`pos_columns`, `int_stat_by_year.py` lines 130-143) -/

/-- Embedding of the `pos_columns` table: canonical position to the ordered
list of stat column names relevant for it. -/
def posColumns : List (PyStr × List PyStr) :=
  [(strCodes "QB", [strCodes "Yds", strCodes "Cmp%", strCodes "Int", strCodes "TD", strCodes "1D"]),
   (strCodes "WR", [strCodes "Y/R", strCodes "Catch%", strCodes "Y/Tgt", strCodes "Succ%"]),
   (strCodes "FB", [strCodes "Y/R", strCodes "Catch%", strCodes "Y/Tgt", strCodes "Succ%"]),
   (strCodes "RB", [strCodes "Y/A", strCodes "Y/R", strCodes "Succ%", strCodes "1D"]),
   (strCodes "TE", [strCodes "Y/R", strCodes "Catch%", strCodes "Y/Tgt", strCodes "Succ%"]),
   (strCodes "OL", [strCodes "Comb", strCodes "Solo", strCodes "Ast"]),
   (strCodes "DL", [strCodes "PD", strCodes "Comb", strCodes "Solo", strCodes "Ast"]),
   (strCodes "LB", [strCodes "PD", strCodes "Comb", strCodes "Solo", strCodes "Ast"]),
   (strCodes "CB", [strCodes "PD", strCodes "Comb", strCodes "Solo", strCodes "Ast"]),
   (strCodes "S", [strCodes "PD", strCodes "Comb", strCodes "Solo", strCodes "Ast"]),
   (strCodes "K", [strCodes "FG%", strCodes "Lng"]),
   (strCodes "P", [strCodes "Y/P", strCodes "Lng"])]

/-- Embedding of `pos_columns.get(pos, [])`. -/
def posColumnsLookup (p : PyStr) : List PyStr :=
  ((posColumns.find? (fun e => decide (e.1 = p))).map (fun e => e.2)).getD []

/-- Stat profile of position `p` intersected with the columns present in the
data (`[stat for stat in pos_columns.get(pos, []) if stat in df.columns]`). -/
def statSet (cols : List PyStr) (p : PyStr) : List PyStr :=
  (posColumnsLookup p).filter (fun st => decide (st ∈ cols))

/-! ### Season-window selection (`nfl_stats.py` `process_file`, lines 82-131) -/

/-- One raw input row's season and games-played value (`Season`, `G`). -/
structure RawRow where
  season : Int
  g : ℚ
deriving DecidableEq

/-- The fixed late-window years (`base_required = [2022, 2023, 2024]`). -/
def baseRequired : List Int := [2022, 2023, 2024]

/-- The nominal early-window years (`group1_base = [2019, 2020, 2021]`). -/
def group1Base : List Int := [2019, 2020, 2021]

/-- Embedding of the `valid_years` filter: keep rows whose season is one of
the six window years or any season strictly before 2019. -/
def relevantRows (rows : List RawRow) : List RawRow :=
  rows.filter (fun r => decide (r.season ∈ group1Base ++ baseRequired ∨ r.season < 2019))

/-- Distinct seasons present after the duplicate-season merge
(`available_years`).  The source sorts this list; every later use
(membership tests, `max`) is order-insensitive, so the order of `dedup`
is immaterial. -/
def availableYears (rows : List RawRow) : List Int :=
  ((relevantRows rows).map (fun r => r.season)).dedup

/-- Maximum of a list of years (`max(substitutes)`); only applied to
nonempty lists. -/
def maxOfList : List Int → Int
  | [] => 0
  | a :: t => t.foldl max a

/-- Games-played value of the merged record for season `y`: the arithmetic
mean of `G` across the (relevant) duplicate rows of that season, `none`
when the season is absent.  This is the value `season_data['G'].max()`
sees after `groupby('Season').agg(agg_func)`. -/
def mergedG (rows : List RawRow) (y : Int) : Option ℚ :=
  let gs := ((relevantRows rows).filter (fun r => decide (r.season = y))).map (fun r => r.g)
  if gs.isEmpty then none else some (gs.sum / gs.length)

/-- Embedding of the early-window (`group1`) selection, lines 112-124: use
the nominal years when 2019 is present; otherwise substitute the latest
available pre-2019 season, provided 2020 and 2021 are both present. -/
def selectGroup1 (avail : List Int) : Option (List Int) :=
  if 2019 ∈ avail then some [2019, 2020, 2021]
  else
    let subs := avail.filter (fun y => decide (y < 2019))
    if ¬subs.isEmpty ∧ 2020 ∈ avail ∧ 2021 ∈ avail then
      some [maxOfList subs, 2020, 2021]
    else none

/-- Failure kinds of season-window selection, matching the skip messages of
`process_file`. -/
inductive WinError
  | notEnoughSeasonalData
  | lateWindowMissing
  | earlyWindowMissing
  | gamesPlayed (year : Int)
deriving DecidableEq

/-- The games-played gate for one year (lines 126-131): the merged record is
absent, or its games-played value is strictly below 6. -/
def gateFails (rows : List RawRow) (y : Int) : Bool :=
  match mergedG rows y with
  | none => true
  | some g => decide (g < 6)

/-- Embedding of the season-window selection portion of `process_file`
(lines 82-131): filter relevant seasons, merge duplicates, require the late
window, select the early window (with substitution), and run the
games-played gate over both windows in order. -/
def selectWindows (rows : List RawRow) : Except WinError (List Int × List Int) :=
  if (relevantRows rows).isEmpty then .error .notEnoughSeasonalData
  else
    let avail := availableYears rows
    if ¬ baseRequired.all (fun y => decide (y ∈ avail)) then .error .lateWindowMissing
    else
      match selectGroup1 avail with
      | none => .error .earlyWindowMissing
      | some g1 =>
        match (g1 ++ baseRequired).find? (fun y => gateFails rows y) with
        | some y => .error (.gamesPlayed y)
        | none => .ok (g1, baseRequired)

/-! ### Window averaging and difference rows
(`nfl_stats.py` lines 180-188, `namepositioncombo_percentage.py` lines 216-226) -/

/-- Pandas mean of a column: skips missing values; the mean of no values is
`NaN`, modelled as `none`. -/
def pandasMean (l : List ℚ) : Option ℚ :=
  if l.isEmpty then none else some (l.sum / l.length)

/-- Window average of one stat: the mean of that stat's present values over
the merged records whose season lies in the window
(`group[cols].mean()`).  `tbl` maps each merged season to the stat's value
(`none` when missing). -/
def windowAvg (tbl : List (Int × Option ℚ)) (years : List Int) : Option ℚ :=
  pandasMean ((tbl.filter (fun r => decide (r.1 ∈ years))).filterMap (fun r => r.2))

/-- IEEE-754 outcome of a difference entry, over exact rationals: a finite
value, a signed infinity, or `NaN`. -/
inductive PFloat
  | fin (q : ℚ)
  | posInf
  | negInf
  | nan
deriving DecidableEq

/-- Absolute difference row entry (`diff = avg_group2 - avg_group1`,
`nfl_stats.py` line 184); any `NaN` operand propagates. -/
def absDiff (early late : Option ℚ) : PFloat :=
  match early, late with
  | some e, some l => .fin (l - e)
  | _, _ => .nan

/-- Percentage difference row entry
(`diff = ((avg_group2 - avg_group1) / avg_group1) * 100`,
`namepositioncombo_percentage.py` line 222), with IEEE float semantics when
the early average is zero: `0/0` is `NaN` and `x/0` is a signed infinity,
which `* 100` preserves. -/
def pctDiff (early late : Option ℚ) : PFloat :=
  match early, late with
  | some e, some l =>
    if e = 0 then
      if l = 0 then .nan
      else if 0 < l then .posInf
      else .negInf
    else .fin ((l - e) / e * 100)
  | _, _ => .nan

/-! ### Multi-position resolution (`int_stat_by_year.py` `process_file`, lines 145-174) -/

/-- One merged season record's season and retained raw position label
(the merge keeps the first occurrence of non-numeric fields). -/
structure MergedRec where
  season : Int
  pos : PyStr
deriving DecidableEq

/-- First-occurrence deduplication, the order `pandas.Series.unique`
produces; `seen` accumulates the values already emitted. -/
def uniqueFirst (seen : List PyStr) : List PyStr → List PyStr
  | [] => []
  | a :: t => if a ∈ seen then uniqueFirst seen t else a :: uniqueFirst (a :: seen) t

/-- Embedding of `unique_positions`: the distinct standardized positions of
the merged records, in first-occurrence order. -/
def uniquePositions (records : List MergedRec) : List PyStr :=
  uniqueFirst [] (records.map (fun r => standardize_position r.pos))

/-- Python set equality of two stat profiles (the source compares
`set(...)` values). -/
def setEq (a b : List PyStr) : Bool :=
  a.all (fun x => decide (x ∈ b)) && b.all (fun x => decide (x ∈ a))

/-- The record of the latest season (`relevant_df.iloc[-1]` after sorting by
season; merged seasons are distinct, so this is the record with the maximum
season). -/
def latestRecord (r : MergedRec) : List MergedRec → MergedRec
  | [] => r
  | s :: t => latestRecord (if s.season ≤ r.season then r else s) t

/-- Failure kinds of position resolution and the subsequent stat-column
check, matching the skip messages of `int_stat_by_year.py`. -/
inductive ResErr
  | noRecords
  | ambiguousPositionChange
  | noApplicableStats
deriving DecidableEq

/-- Embedding of the multi-position resolution (lines 145-164): with one
distinct standardized position, use it; with several, compare the stat
profiles intersected with the present columns as sets, resolving to the
standardized position of the latest season's record when they all agree and
failing otherwise.  (With no records at all the source would raise an
`IndexError`, caught as a generic error; modelled as `noRecords`.) -/
def resolvePosition (records : List MergedRec) (cols : List PyStr) : Except ResErr PyStr :=
  match records, uniquePositions records with
  | _, [] => .error .noRecords
  | _, [p] => .ok p
  | [], _ :: _ :: _ => .error .noRecords
  | r :: rs, p :: q :: ps =>
    if (p :: q :: ps).all (fun x => setEq (statSet cols x) (statSet cols p)) then
      .ok (standardize_position (latestRecord r rs).pos)
    else .error .ambiguousPositionChange

/-- Embedding of resolution followed by the stat-column check
(lines 166-174): fail when no expected stat column for the resolved
position is present in the data. -/
def processPlayerPosition (records : List MergedRec) (cols : List PyStr) :
    Except ResErr (PyStr × List PyStr) :=
  match resolvePosition records cols with
  | .error e => .error e
  | .ok fp =>
    let sc := statSet cols fp
    if sc.isEmpty then .error .noApplicableStats else .ok (fp, sc)

/-! ### Per-position repositories and duplicate policies
(`int_stat_by_year.py` lines 204-212 and 256-263, `nfl_stats.py` lines 214-232) -/

/-- A per-player result appended to a position's aggregate; only the player
identity matters to the duplicate policies, the rows are the payload. -/
structure PlayerResult where
  playerId : PyStr
  rows : List (List (Option ℚ))
deriving DecidableEq

/-- Outcome of an append against a position repository. -/
inductive AppendOutcome
  | accepted
  | duplicateSkipped
deriving DecidableEq

/-- AutoSkip append (`int_stat_by_year.py` lines 204-210): when the player
identity is already present the repository is left unchanged and the update
is skipped, otherwise the result is appended. -/
def appendAutoSkip (repo : List PlayerResult) (res : PlayerResult) :
    List PlayerResult × AppendOutcome :=
  if res.playerId ∈ repo.map (fun r => r.playerId) then
    (repo, .duplicateSkipped)
  else (repo ++ [res], .accepted)

/-- Answer of the interactive duplicate prompt of `nfl_stats.py`
(lines 217-225): `Y` means a new individual sharing the name, `N` means the
same player. -/
inductive DupAnswer
  | newPlayer
  | samePlayer
deriving DecidableEq

/-- PromptResolve append (`nfl_stats.py` lines 214-232): on a duplicate
identity the caller's answer decides; `Y` appends the result as-is (same
player identity), `N` skips the aggregate update. -/
def appendPromptResolve (repo : List PlayerResult) (res : PlayerResult)
    (answer : DupAnswer) : List PlayerResult × AppendOutcome :=
  if res.playerId ∈ repo.map (fun r => r.playerId) then
    match answer with
    | .newPlayer => (repo ++ [res], .accepted)
    | .samePlayer => (repo, .duplicateSkipped)
  else (repo ++ [res], .accepted)

/-- Per-file processing outcome reaching the aggregate-update stage of
`int_stat_by_year.py`: either a computed result, or a skip recorded with the
player identity and reason. -/
inductive FileOutcome
  | success (res : PlayerResult)
  | skipped (player : PyStr) (reason : PyStr)
deriving DecidableEq

/-- Batch state: the position repository and the accumulated
`skipped_summary` entries. -/
structure BatchState where
  repo : List PlayerResult
  summary : List (PyStr × PyStr)
deriving DecidableEq

/-- One step of the batch loop: a skip is recorded in the summary; a
successful result goes through the AutoSkip append, and a duplicate leaves
both the repository and the summary unchanged (the duplicate path of
`process_file` returns without touching `skipped_summary`). -/
def runStep (st : BatchState) : FileOutcome → BatchState
  | .skipped p reason => ⟨st.repo, st.summary ++ [(p, reason)]⟩
  | .success res => ⟨(appendAutoSkip st.repo res).1, st.summary⟩

/-- The batch loop of `main_folder` over per-file outcomes. -/
def runBatch (items : List FileOutcome) : BatchState :=
  items.foldl runStep ⟨[], []⟩

/-- Does `pat` occur at the start of `s`?  (Helper for Python's `in` on
strings.) -/
def startsWithPat : PyStr → PyStr → Bool
  | [], _ => true
  | _ :: _, [] => false
  | a :: ps, b :: s => a == b && startsWithPat ps s

/-- Python `pat in s` substring test. -/
def hasSubPat (pat : PyStr) : PyStr → Bool
  | [] => startsWithPat pat []
  | b :: s => startsWithPat pat (b :: s) || hasSubPat pat s

/-- The duplicate skip message of `int_stat_by_year.py` line 206. -/
def dupMsg : PyStr := strCodes "Duplicate player name"

/-- End-of-run failure summary (`main_folder` lines 256-261): the recorded
skips whose reason does not mention a duplicate player name. -/
def failureSummary (summary : List (PyStr × PyStr)) : List (PyStr × PyStr) :=
  summary.filter (fun item => ¬ hasSubPat dupMsg item.2)

/-! ### Numeric parsing at the two call sites
(`aggregate_analysis.py` lines 22-30, `nfl_stats.py` lines 180-184) -/

/-- Model of `str.rstrip('%')`: remove every trailing percent sign
(code 37). -/
def pyRstripPct (s : PyStr) : PyStr :=
  (s.reverse.dropWhile (fun c => c == 37)).reverse

/-- Model of `.replace('nan', '')` on a stringified column: a cell exactly
equal to `"nan"` becomes the empty string (every other cell is kept). -/
def replaceNanCell (s : PyStr) : PyStr :=
  if s = strCodes "nan" then [] else s

/-- Is `n` the code of an ASCII digit? -/
def isDigitCode (n : Nat) : Bool := decide (48 ≤ n ∧ n ≤ 57)

/-- Numeric value of a list of ASCII digit codes. -/
def digitsVal (l : PyStr) : Nat :=
  l.foldl (fun acc d => acc * 10 + (d - 48)) 0

/-- Unsigned part of Python `float()` on a plain decimal literal: digits,
optionally followed by a point (code 46) and digits; at least one digit
must be present.  (The pipeline only produces plain decimal literals;
exponents and special tokens are outside this model.) -/
def pyFloatCore (s : PyStr) : Option ℚ :=
  let intPart := s.takeWhile isDigitCode
  let rest := s.dropWhile isDigitCode
  match rest with
  | [] => if intPart.isEmpty then none else some (digitsVal intPart)
  | 46 :: frac =>
    if frac.all isDigitCode && !(intPart.isEmpty && frac.isEmpty) then
      some ((digitsVal intPart : ℚ) + (digitsVal frac : ℚ) / 10 ^ frac.length)
    else none
  | _ => none

/-- Python `float()` on a plain decimal literal with optional sign
(codes 45 `-`, 43 `+`); `none` models the `ValueError` raise. -/
def pyFloatParse (s : PyStr) : Option ℚ :=
  match s with
  | 45 :: rest => (pyFloatCore rest).map (fun q => -q)
  | 43 :: rest => pyFloatCore rest
  | _ => pyFloatCore s

/-- Numeric conversion of one stat cell in `process_aggregate_file`
(lines 22-30): stringified value, trailing `%` stripped, literal `nan`
replaced by the empty string, then `float()`. -/
def convCell (s : PyStr) : Option ℚ :=
  pyFloatParse (replaceNanCell (pyRstripPct s))

/-- A stat cell as read from the source table at the window-averaging call
site: a numeric value, a non-numeric string, or an empty cell (`NaN`). -/
inductive XCell
  | num (q : ℚ)
  | text (s : PyStr)
  | blank
deriving DecidableEq

/-- Is the cell a non-numeric string? -/
def isTextCell : XCell → Bool
  | .text _ => true
  | _ => false

/-- The numeric value of a cell, when it has one. -/
def numOfCell : XCell → Option ℚ
  | .num q => some q
  | _ => none

/-- Window-site column mean (`group[cols].mean()`, `nfl_stats.py`
lines 182-183): numeric cells are averaged with missing cells excluded; a
string-valued cell makes the column non-numeric and the mean raise
(pandas `TypeError`), modelled as `Except.error`.  No percent-stripping
happens here. -/
def windowColMean (cells : List XCell) : Except Unit (Option ℚ) :=
  if cells.any isTextCell then .error ()
  else .ok (pandasMean (cells.filterMap numOfCell))

/-! ### Aggregate analysis and position ranking (`aggregate_analysis.py`) -/

/-- One row of a position's aggregate workbook: player name, season-group
label (`Group1`, `Group2` or `Difference`), and the stringified stat
cells. -/
structure AggRow where
  player : PyStr
  group : PyStr
  cells : List PyStr
deriving DecidableEq

/-- A position's aggregate table: the stat column names and the rows. -/
structure AggTable where
  statNames : List PyStr
  rows : List AggRow
deriving DecidableEq

/-- Summary computed from one aggregate file: distinct player count,
per-stat average of the difference rows, and the overall average over the
flattened difference values. -/
structure AggSummary where
  numPlayers : Nat
  avgPerStat : List (PyStr × Option ℚ)
  overall : ℚ
deriving DecidableEq

/-- Is this a `Difference` row
(`df['Season Group'].astype(str).str.lower() == 'difference'`)? -/
def isDiffRow (r : AggRow) : Bool :=
  pyLower r.group == strCodes "difference"

/-- Value at column index `i` across the parsed difference rows. -/
def columnVals (vals : List (List ℚ)) (i : Nat) : List ℚ :=
  vals.filterMap (fun r => r.get? i)

/-- Convert every element, failing when any single conversion fails (the
raise-on-first-failure behaviour of the column conversion loop). -/
def mapOption (f : α → Option β) : List α → Option (List β)
  | [] => some []
  | a :: t =>
    match f a, mapOption f t with
    | some b, some bs => some (b :: bs)
    | _, _ => none

/-- Embedding of `process_aggregate_file` (lines 5-36): count distinct
players over all rows, keep only the `Difference` rows, convert their cells
to numbers (any failed conversion raises, modelled as `none`), then average
each stat column and the flattened value multiset.  A file whose flattened
difference set is empty carries an undefined (`NaN`) overall average and is
likewise modelled as `none`. -/
def process_aggregate_file (t : AggTable) : Option AggSummary :=
  match mapOption (fun r => mapOption convCell r.cells) (t.rows.filter isDiffRow) with
  | none => none
  | some vals =>
    match pandasMean vals.flatten with
    | none => none
    | some overall =>
      some { numPlayers := (t.rows.map (fun r => r.player)).dedup.length
             avgPerStat :=
               (List.range t.statNames.length).map
                 (fun i => (t.statNames.getD i [], pandasMean (columnVals vals i)))
             overall := overall }

/-- One entry of the cross-position ranking. -/
structure RankingEntry where
  position : PyStr
  playerCount : Nat
  avgPerStat : List (PyStr × Option ℚ)
  overall : ℚ
deriving DecidableEq

/-- Embedding of `main`'s ranking (lines 41-74): process each position's
aggregate file (files that raise are skipped), then sort the summary rows
descending by the overall average difference. -/
def rank (files : List (PyStr × AggTable)) : List RankingEntry :=
  List.insertionSort (fun a b : RankingEntry => b.overall ≤ a.overall)
    (files.filterMap (fun pt =>
      (process_aggregate_file pt.2).map
        (fun s => ⟨pt.1, s.numPlayers, s.avgPerStat, s.overall⟩)))

/-! ### Helper lemmas -/

/-- The seed of a `foldl max` is bounded by the result. -/
theorem init_le_foldl_max : ∀ (t : List Int) (a : Int), a ≤ t.foldl max a := by
  intro t
  induction t with
  | nil => intro a; exact le_refl a
  | cons b t ih => intro a; exact le_trans (le_max_left a b) (ih (max a b))

/-- Every element of `a :: t` is bounded by `t.foldl max a`. -/
theorem mem_le_foldl_max : ∀ (t : List Int) (a y : Int), y ∈ a :: t → y ≤ t.foldl max a := by
  intro t
  induction t with
  | nil =>
    intro a y hy
    rcases List.mem_cons.1 hy with rfl | h
    · exact le_refl _
    · exact absurd h (List.not_mem_nil y)
  | cons b t ih =>
    intro a y hy
    rcases List.mem_cons.1 hy with rfl | hy'
    · exact le_trans (le_max_left y b) (init_le_foldl_max t (max y b))
    · rcases List.mem_cons.1 hy' with rfl | hy''
      · exact le_trans (le_max_right a y) (init_le_foldl_max t (max a y))
      · exact ih (max a b) y (List.mem_cons_of_mem _ hy'')

/-- The result of `foldl max` over `a :: t` is one of its elements. -/
theorem foldl_max_mem : ∀ (t : List Int) (a : Int), t.foldl max a ∈ a :: t := by
  intro t
  induction t with
  | nil => intro a; exact List.mem_cons_self a []
  | cons b t ih =>
    intro a
    have h := ih (max a b)
    rcases List.mem_cons.1 h with h1 | h1
    · rcases max_choice a b with h2 | h2
      · exact List.mem_cons.2 (Or.inl (h1.trans h2))
      · exact List.mem_cons_of_mem _ (List.mem_cons.2 (Or.inl (h1.trans h2)))
    · exact List.mem_cons_of_mem _ (List.mem_cons_of_mem _ h1)

/-- The maximum of a nonempty list is a member. -/
theorem maxOfList_mem {l : List Int} (h : l ≠ []) : maxOfList l ∈ l := by
  cases l with
  | nil => exact absurd rfl h
  | cons a t => exact foldl_max_mem t a

/-- The maximum of a list bounds every member. -/
theorem le_maxOfList {l : List Int} {y : Int} (h : y ∈ l) : y ≤ maxOfList l := by
  cases l with
  | nil => exact absurd h (List.not_mem_nil y)
  | cons a t => exact mem_le_foldl_max t a y h

/-! ### C1: early-window selection -/

/-- Seasons 2018, 2020-2024 with ample games played: the substitution case. -/
def rowsSub : List RawRow :=
  [⟨2018, 10⟩, ⟨2020, 10⟩, ⟨2021, 10⟩, ⟨2022, 10⟩, ⟨2023, 10⟩, ⟨2024, 10⟩]

/-- Seasons 2020-2024 with ample games played: no 2019 and no substitute. -/
def rowsNoSub : List RawRow :=
  [⟨2020, 10⟩, ⟨2021, 10⟩, ⟨2022, 10⟩, ⟨2023, 10⟩, ⟨2024, 10⟩]

/-- C1: if 2019 is among the merged seasons the early window is the nominal
`{2019, 2020, 2021}`; if it is absent, the latest season strictly earlier
than 2019 is substituted as the window's first year, provided 2020 and 2021
are both present; otherwise selection fails with the
insufficient-early-window error.  Concretely, seasons
`{2018, 2020, 2021, 2022, 2023, 2024}` resolve to early window
`{2018, 2020, 2021}` and late window `{2022, 2023, 2024}`, and seasons
`{2020, 2021, 2022, 2023, 2024}` fail. -/
theorem c1_early_window_selection :
    (∀ avail : List Int, 2019 ∈ avail → selectGroup1 avail = some [2019, 2020, 2021])
    ∧ (∀ avail : List Int, 2019 ∉ avail → 2020 ∈ avail → 2021 ∈ avail →
        ∀ y0 ∈ avail, y0 < 2019 →
          ∃ m, selectGroup1 avail = some [m, 2020, 2021] ∧ m ∈ avail ∧ m < 2019 ∧
            ∀ y ∈ avail, y < 2019 → y ≤ m)
    ∧ (∀ rows : List RawRow, ¬ (relevantRows rows).isEmpty = true →
        baseRequired.all (fun y => decide (y ∈ availableYears rows)) = true →
        2019 ∉ availableYears rows →
        ¬ ((∃ y ∈ availableYears rows, y < 2019) ∧
            2020 ∈ availableYears rows ∧ 2021 ∈ availableYears rows) →
        selectWindows rows = .error .earlyWindowMissing)
    ∧ selectWindows rowsSub = .ok ([2018, 2020, 2021], [2022, 2023, 2024])
    ∧ selectWindows rowsNoSub = .error .earlyWindowMissing := by
  refine ⟨?_, ?_, ?_, ?_, ?_⟩
  · intro avail h
    simp [selectGroup1, h]
  · intro avail h2019 h2020 h2021 y0 hy0 hy0lt
    have hmem : y0 ∈ avail.filter (fun y => decide (y < 2019)) :=
      List.mem_filter.2 ⟨hy0, by simpa using hy0lt⟩
    have hne : ¬ (avail.filter (fun y => decide (y < 2019))).isEmpty = true := by
      simp only [List.isEmpty_iff]
      exact fun hnil => absurd (hnil ▸ hmem) (List.not_mem_nil y0)
    refine ⟨maxOfList (avail.filter (fun y => decide (y < 2019))), ?_, ?_, ?_, ?_⟩
    · simp only [selectGroup1, if_neg h2019]
      rw [if_pos ⟨hne, h2020, h2021⟩]
    · have := maxOfList_mem (l := avail.filter (fun y => decide (y < 2019)))
        (by simpa [List.isEmpty_iff] using hne)
      exact (List.mem_filter.1 this).1
    · have := maxOfList_mem (l := avail.filter (fun y => decide (y < 2019)))
        (by simpa [List.isEmpty_iff] using hne)
      simpa using (List.mem_filter.1 this).2
    · intro y hy hylt
      exact le_maxOfList (List.mem_filter.2 ⟨hy, by simpa using hylt⟩)
  · intro rows hrel hlate h2019 hno
    have hg1 : selectGroup1 (availableYears rows) = none := by
      simp only [selectGroup1, if_neg h2019]
      rw [if_neg]
      rintro ⟨hne, h20, h21⟩
      refine hno ⟨?_, h20, h21⟩
      have : (availableYears rows).filter (fun y => decide (y < 2019)) ≠ [] := by
        simpa [List.isEmpty_iff] using hne
      rcases List.exists_mem_of_ne_nil _ this with ⟨y, hy⟩
      exact ⟨y, (List.mem_filter.1 hy).1, by simpa using (List.mem_filter.1 hy).2⟩
    simp only [selectWindows, if_neg hrel]
    rw [if_neg (by simpa using hlate)]
    rw [hg1]
  · norm_num [selectWindows, relevantRows, availableYears, selectGroup1, maxOfList,
      gateFails, mergedG, baseRequired, group1Base, rowsSub, List.filter, List.dedup,
      List.find?, List.foldl, pandasMean]
  · norm_num [selectWindows, relevantRows, availableYears, selectGroup1, maxOfList,
      gateFails, mergedG, baseRequired, group1Base, rowsNoSub, List.filter, List.dedup,
      List.find?, List.foldl, pandasMean]

/-- Concrete instantiation of `c1_early_window_selection`: each hypothesised
part applied at explicit inputs. -/
theorem c1_early_window_selection_witness :
    selectGroup1 [2019, 2020, 2021, 2022] = some [2019, 2020, 2021]
    ∧ (∃ m, selectGroup1 [2016, 2018, 2020, 2021] = some [m, 2020, 2021] ∧
        m ∈ [2016, 2018, 2020, 2021] ∧ m < 2019 ∧
        ∀ y ∈ [(2016 : Int), 2018, 2020, 2021], y < 2019 → y ≤ m)
    ∧ selectWindows rowsNoSub = .error .earlyWindowMissing := by
  refine ⟨c1_early_window_selection.1 _ (by decide),
    c1_early_window_selection.2.1 _ (by decide) (by decide) (by decide) 2016 (by decide)
      (by decide),
    c1_early_window_selection.2.2.1 rowsNoSub (by decide) (by decide) (by decide)
      (by decide)⟩

/-! ### C2: games-played gate -/

/-- Seasons 2019-2024, games played 6 in 2019 and 10 elsewhere. -/
def rowsGateSix : List RawRow :=
  [⟨2019, 6⟩, ⟨2020, 10⟩, ⟨2021, 10⟩, ⟨2022, 10⟩, ⟨2023, 10⟩, ⟨2024, 10⟩]

/-- Seasons 2019-2024, games played 5 in 2019 and 10 elsewhere. -/
def rowsGateFive : List RawRow :=
  [⟨2019, 5⟩, ⟨2020, 10⟩, ⟨2021, 10⟩, ⟨2022, 10⟩, ⟨2023, 10⟩, ⟨2024, 10⟩]

/-- C2 evaluation: the code's gate skips only when the merged games-played
value is strictly below 6, so a season whose maximum games played equals 6
is accepted (contradicting the documented strictly-greater-than-6
threshold), while a maximum of 5 is rejected with the games-played error
for that year. -/
theorem c2_games_played_gate_eval :
    selectWindows rowsGateSix = .ok ([2019, 2020, 2021], [2022, 2023, 2024])
    ∧ selectWindows rowsGateFive = .error (.gamesPlayed 2019)
    ∧ mergedG rowsGateSix 2019 = some 6 := by
  refine ⟨?_, ?_, ?_⟩ <;>
    norm_num [selectWindows, relevantRows, availableYears, selectGroup1, maxOfList,
      gateFails, mergedG, baseRequired, group1Base, rowsGateSix, rowsGateFive,
      List.filter, List.dedup, List.find?, List.foldl, pandasMean]

/-! ### C3: difference computation -/

/-- Counterexample to C3 as stated: with a zero early average and a nonzero
late average, percentage mode yields a propagated infinity, not `NaN`. -/
theorem c3_percentage_zero_counterexample :
    pctDiff (some 0) (some 10) = PFloat.posInf ∧ PFloat.posInf ≠ PFloat.nan := by
  constructor
  · simp [pctDiff]
  · decide

/-- C3 amended: absolute mode is exactly `late - early`; percentage mode is
`(late - early) / early * 100` whenever the early average is nonzero; when
the early average is zero the result is `NaN` only if the late average is
also zero, and otherwise a signed infinity is propagated — it is never
reported as the finite value zero. -/
theorem c3_difference_amended :
    (∀ e l : ℚ, absDiff (some e) (some l) = .fin (l - e))
    ∧ (∀ (tbl : List (Int × Option ℚ)) (g1 g2 : List Int) (e l : ℚ),
        windowAvg tbl g1 = some e → windowAvg tbl g2 = some l →
        absDiff (windowAvg tbl g1) (windowAvg tbl g2) = .fin (l - e))
    ∧ (∀ e l : ℚ, e ≠ 0 → pctDiff (some e) (some l) = .fin ((l - e) / e * 100))
    ∧ (∀ l : ℚ, pctDiff (some 0) (some l) =
        if l = 0 then .nan else if 0 < l then .posInf else .negInf)
    ∧ (∀ l : ℚ, pctDiff (some 0) (some l) ≠ .fin 0) := by
  refine ⟨fun e l => rfl, ?_, ?_, ?_, ?_⟩
  · intro tbl g1 g2 e l he hl
    rw [he, hl]
    rfl
  · intro e l he
    simp [pctDiff, he]
  · intro l
    simp [pctDiff]
  · intro l
    by_cases h : l = 0
    · simp [pctDiff, h]
    · simp only [pctDiff, if_pos rfl, if_neg h]
      split_ifs <;> simp

/-- Concrete instantiation of `c3_difference_amended`. -/
theorem c3_difference_amended_witness :
    absDiff (some 2) (some 3) = PFloat.fin (3 - 2)
    ∧ pctDiff (some 2) (some 3) = PFloat.fin ((3 - 2) / 2 * 100)
    ∧ pctDiff (some 0) (some 10) ≠ PFloat.fin 0 := by
  exact ⟨c3_difference_amended.1 2 3, c3_difference_amended.2.2.1 2 3 (by norm_num),
    c3_difference_amended.2.2.2.2 10⟩

/-! ### C4 and C10: multi-position resolution -/

/-- Membership is preserved into the first-occurrence deduplication. -/
theorem mem_uniqueFirst :
    ∀ (l seen : List PyStr) (a : PyStr), a ∈ l → a ∉ seen → a ∈ uniqueFirst seen l := by
  intro l
  induction l with
  | nil => intro seen a ha _; exact absurd ha (List.not_mem_nil a)
  | cons b t ih =>
    intro seen a ha hseen
    by_cases hb : b ∈ seen
    · rw [uniqueFirst, if_pos hb]
      rcases List.mem_cons.1 ha with rfl | ha'
      · exact absurd hb hseen
      · exact ih seen a ha' hseen
    · rw [uniqueFirst, if_neg hb]
      rcases List.mem_cons.1 ha with rfl | ha'
      · exact List.mem_cons_self _ _
      · by_cases hab : a = b
        · subst hab; exact List.mem_cons_self _ _
        · exact List.mem_cons_of_mem _
            (ih (b :: seen) a ha' (by simp [List.mem_cons, hab, hseen]))

/-- The latest-season record is one of the records. -/
theorem latestRecord_mem : ∀ (rs : List MergedRec) (r : MergedRec), latestRecord r rs ∈ r :: rs := by
  intro rs
  induction rs with
  | nil => intro r; exact List.mem_cons_self _ _
  | cons s t ih =>
    intro r
    rw [latestRecord]
    by_cases h : s.season ≤ r.season
    · rw [if_pos h]
      rcases List.mem_cons.1 (ih r) with h1 | h1
      · exact List.mem_cons.2 (Or.inl h1)
      · exact List.mem_cons_of_mem _ (List.mem_cons_of_mem _ h1)
    · rw [if_neg h]
      rcases List.mem_cons.1 (ih s) with h1 | h1
      · exact List.mem_cons_of_mem _ (List.mem_cons.2 (Or.inl h1))
      · exact List.mem_cons_of_mem _ (List.mem_cons_of_mem _ h1)

/-- The standardized position of the latest record occurs among the distinct
standardized positions. -/
theorem standardize_latest_mem (r : MergedRec) (rs : List MergedRec) :
    standardize_position (latestRecord r rs).pos ∈ uniquePositions (r :: rs) := by
  have hmem : latestRecord r rs ∈ r :: rs := latestRecord_mem rs r
  exact mem_uniqueFirst _ [] _
    (List.mem_map_of_mem (fun x => standardize_position x.pos) hmem)
    (List.not_mem_nil _)

/-- Columns present in a demonstration source table: the defensive stat
columns together with the receiving and rushing stat columns. -/
def demoCols : List PyStr :=
  [strCodes "PD", strCodes "Comb", strCodes "Solo", strCodes "Ast", strCodes "Y/R",
   strCodes "Catch%", strCodes "Y/Tgt", strCodes "Succ%", strCodes "Y/A", strCodes "1D"]

/-- C4: a player with exactly one distinct canonical position resolves to
it; with several distinct canonical positions, identical intersected stat
profiles resolve to the canonical position of the most recent season
record, and differing profiles fail with the ambiguous-position-change
error.  Concretely, raw positions OLB and SAM both normalize to LB and
resolve to LB, while WR and RB (differing profiles) fail. -/
theorem c4_position_resolution :
    (∀ (records : List MergedRec) (cols : List PyStr) (p : PyStr),
        uniquePositions records = [p] → resolvePosition records cols = .ok p)
    ∧ (∀ (r : MergedRec) (rs : List MergedRec) (cols : List PyStr) (p q : PyStr)
        (ps : List PyStr), uniquePositions (r :: rs) = p :: q :: ps →
        ((p :: q :: ps).all (fun x => setEq (statSet cols x) (statSet cols p))) = true →
        resolvePosition (r :: rs) cols = .ok (standardize_position (latestRecord r rs).pos))
    ∧ (∀ (r : MergedRec) (rs : List MergedRec) (cols : List PyStr) (p q : PyStr)
        (ps : List PyStr), uniquePositions (r :: rs) = p :: q :: ps →
        ((p :: q :: ps).all (fun x => setEq (statSet cols x) (statSet cols p))) = false →
        resolvePosition (r :: rs) cols = .error .ambiguousPositionChange)
    ∧ resolvePosition [⟨2020, strCodes "OLB"⟩, ⟨2024, strCodes "SAM"⟩] demoCols
        = .ok (strCodes "LB")
    ∧ resolvePosition [⟨2020, strCodes "WR"⟩, ⟨2024, strCodes "RB"⟩] demoCols
        = .error .ambiguousPositionChange := by
  refine ⟨?_, ?_, ?_, ?_, ?_⟩
  · intro records cols p h
    cases records with
    | nil => simp [uniquePositions, uniqueFirst] at h
    | cons r rs => simp [resolvePosition, h]
  · intro r rs cols p q ps h hall
    simp [resolvePosition, h, hall]
  · intro r rs cols p q ps h hall
    simp [resolvePosition, h, hall]
  · rfl
  · rfl

/-- Concrete instantiation of `c4_position_resolution`: raw labels DE and
MLB normalize to the distinct canonical positions DL and LB, whose stat
profiles agree, so the player resolves to the latest season's standardized
label. -/
theorem c4_position_resolution_witness :
    resolvePosition [⟨2020, strCodes "DE"⟩, ⟨2024, strCodes "MLB"⟩] demoCols
      = .ok (standardize_position
          (latestRecord ⟨2020, strCodes "DE"⟩ [⟨2024, strCodes "MLB"⟩]).pos)
    ∧ resolvePosition [⟨2020, strCodes "OLB"⟩, ⟨2024, strCodes "SAM"⟩] demoCols
      = .ok (strCodes "LB") := by
  exact ⟨c4_position_resolution.2.1 ⟨2020, strCodes "DE"⟩ [⟨2024, strCodes "MLB"⟩]
      demoCols (strCodes "DL") (strCodes "LB") [] (by rfl) (by rfl),
    c4_position_resolution.1 [⟨2020, strCodes "OLB"⟩, ⟨2024, strCodes "SAM"⟩] demoCols
      (strCodes "LB") (by rfl)⟩

/-- C10: when every distinct canonical position has an empty intersected
stat profile, the profiles count as identical, so resolution succeeds with
the latest season's standardized position and the subsequent stat-column
check fails with the no-applicable-stats skip. -/
theorem c10_empty_profiles :
    ∀ (r : MergedRec) (rs : List MergedRec) (cols : List PyStr) (p q : PyStr)
      (ps : List PyStr), uniquePositions (r :: rs) = p :: q :: ps →
      (∀ x ∈ p :: q :: ps, statSet cols x = []) →
      resolvePosition (r :: rs) cols
          = .ok (standardize_position (latestRecord r rs).pos)
        ∧ processPlayerPosition (r :: rs) cols = .error .noApplicableStats := by
  intro r rs cols p q ps h hempty
  have hall : ((p :: q :: ps).all
      (fun x => setEq (statSet cols x) (statSet cols p))) = true := by
    refine List.all_eq_true.2 fun x hx => ?_
    rw [hempty x hx, hempty p (List.mem_cons_self _ _)]
    rfl
  have hres : resolvePosition (r :: rs) cols
      = .ok (standardize_position (latestRecord r rs).pos) := by
    simp [resolvePosition, h, hall]
  refine ⟨hres, ?_⟩
  have hfmem : standardize_position (latestRecord r rs).pos ∈ p :: q :: ps := by
    rw [← h]; exact standardize_latest_mem r rs
  have hfs : statSet cols (standardize_position (latestRecord r rs).pos) = [] :=
    hempty _ hfmem
  simp [processPlayerPosition, hres, hfs]

/-- Concrete instantiation of `c10_empty_profiles`: two unrecognized raw
positions, both with empty stat profiles. -/
theorem c10_empty_profiles_witness :
    resolvePosition [⟨2020, strCodes "XX"⟩, ⟨2024, strCodes "YY"⟩] demoCols
        = .ok (standardize_position
            (latestRecord ⟨2020, strCodes "XX"⟩ [⟨2024, strCodes "YY"⟩]).pos)
      ∧ processPlayerPosition [⟨2020, strCodes "XX"⟩, ⟨2024, strCodes "YY"⟩] demoCols
        = .error .noApplicableStats := by
  exact c10_empty_profiles ⟨2020, strCodes "XX"⟩ [⟨2024, strCodes "YY"⟩] demoCols
    (strCodes "XX") (strCodes "YY") [] (by rfl) (by decide)

/-! ### C6: AutoSkip duplicate policy -/

/-- Every entry of a batch run's summary was either already present in the
starting state or was recorded from a skipped item of the batch. -/
theorem runBatch_summary_spec :
    ∀ (items : List FileOutcome) (st : BatchState),
      ∀ e ∈ (items.foldl runStep st).summary,
        e ∈ st.summary ∨ FileOutcome.skipped e.1 e.2 ∈ items := by
  intro items
  induction items with
  | nil => intro st e he; exact Or.inl he
  | cons it t ih =>
    intro st e he
    rcases ih (runStep st it) e he with h | h
    · cases it with
      | skipped p reason =>
        rcases List.mem_append.1 h with h1 | h1
        · exact Or.inl h1
        · simp only [List.mem_singleton] at h1
          subst h1
          exact Or.inr (List.mem_cons_self _ _)
      | success res => exact Or.inl h
    · exact Or.inr (List.mem_cons_of_mem _ h)

/-- C6: appending a result whose player identity already exists in the
repository leaves the repository unchanged and yields the duplicate-skipped
outcome; a second append of the same identity to a fresh repository stores
exactly one result; and the end-of-run failure summary lists only
non-duplicate skips, each with the player identity and reason it was
recorded with. -/
theorem c6_autoskip_duplicate :
    (∀ (repo : List PlayerResult) (res : PlayerResult),
        res.playerId ∈ repo.map (fun r => r.playerId) →
        appendAutoSkip repo res = (repo, .duplicateSkipped))
    ∧ (∀ res₁ res₂ : PlayerResult, res₁.playerId = res₂.playerId →
        appendAutoSkip [] res₁ = ([res₁], .accepted)
          ∧ appendAutoSkip (appendAutoSkip [] res₁).1 res₂ = ([res₁], .duplicateSkipped))
    ∧ (∀ (items : List FileOutcome),
        ∀ e ∈ failureSummary (runBatch items).summary,
          ¬ hasSubPat dupMsg e.2 = true ∧ FileOutcome.skipped e.1 e.2 ∈ items) := by
  refine ⟨?_, ?_, ?_⟩
  · intro repo res h
    simp [appendAutoSkip, h]
  · intro res₁ res₂ h
    have h1 : appendAutoSkip [] res₁ = ([res₁], .accepted) := by
      simp [appendAutoSkip]
    refine ⟨h1, ?_⟩
    rw [h1]
    simp [appendAutoSkip, ← h]
  · intro items e he
    have hmem := List.mem_filter.1 he
    refine ⟨by simpa using hmem.2, ?_⟩
    have := runBatch_summary_spec items ⟨[], []⟩ e hmem.1
    rcases this with h | h
    · exact absurd h (List.not_mem_nil e)
    · exact h

/-- Concrete instantiation of `c6_autoskip_duplicate`: a batch with one
genuine failure and a duplicated successful player. -/
theorem c6_autoskip_duplicate_witness :
    appendAutoSkip [⟨strCodes "John Smith", []⟩] ⟨strCodes "John Smith", [[some 1]]⟩
        = ([⟨strCodes "John Smith", []⟩], .duplicateSkipped)
      ∧ (appendAutoSkip [] (⟨strCodes "Jane Doe", []⟩ : PlayerResult) = ([⟨strCodes "Jane Doe", []⟩], .accepted)
          ∧ appendAutoSkip (appendAutoSkip [] (⟨strCodes "Jane Doe", []⟩ : PlayerResult)).1
              ⟨strCodes "Jane Doe", []⟩ = ([⟨strCodes "Jane Doe", []⟩], .duplicateSkipped))
      ∧ (¬ hasSubPat dupMsg (strCodes "Wrong format error.") = true
          ∧ FileOutcome.skipped (strCodes "Bad File") (strCodes "Wrong format error.")
              ∈ [FileOutcome.skipped (strCodes "Bad File") (strCodes "Wrong format error."),
                 FileOutcome.success ⟨strCodes "Jane Doe", []⟩,
                 FileOutcome.success ⟨strCodes "Jane Doe", [[some 1]]⟩]) := by
  refine ⟨c6_autoskip_duplicate.1 _ _ (by decide),
    c6_autoskip_duplicate.2.1 ⟨strCodes "Jane Doe", []⟩ ⟨strCodes "Jane Doe", []⟩ rfl,
    c6_autoskip_duplicate.2.2
      [FileOutcome.skipped (strCodes "Bad File") (strCodes "Wrong format error."),
       FileOutcome.success ⟨strCodes "Jane Doe", []⟩,
       FileOutcome.success ⟨strCodes "Jane Doe", [[some 1]]⟩]
      (strCodes "Bad File", strCodes "Wrong format error.") (by decide)⟩

/-! ### C8: PromptResolve duplicate policy -/

/-- A duplicated player result for the prompt-resolve counterexample. -/
def demoDupResult : PlayerResult := ⟨strCodes "John Smith", []⟩

/-- Counterexample to C8 as stated: answering that the player is a new
individual appends the result under the very same player identity — the
repository then holds two entries whose player identities coincide, not a
disambiguated one. -/
theorem c8_prompt_resolve_counterexample :
    appendPromptResolve [demoDupResult] demoDupResult .newPlayer
        = ([demoDupResult, demoDupResult], .accepted)
    ∧ ((appendPromptResolve [demoDupResult] demoDupResult .newPlayer).1.map
        (fun r => r.playerId)).dedup.length = 1 := by
  constructor
  · rfl
  · rfl

/-- C8 amended: on a duplicate identity, a `new` answer appends the result
unchanged — under the same player identity, with no disambiguation — and a
`same` answer skips the update leaving the repository unchanged. -/
theorem c8_prompt_resolve_amended :
    ∀ (repo : List PlayerResult) (res : PlayerResult),
      res.playerId ∈ repo.map (fun r => r.playerId) →
      appendPromptResolve repo res .newPlayer = (repo ++ [res], .accepted)
        ∧ appendPromptResolve repo res .samePlayer = (repo, .duplicateSkipped) := by
  intro repo res h
  constructor
  · simp [appendPromptResolve, h]
  · simp [appendPromptResolve, h]

/-- Concrete instantiation of `c8_prompt_resolve_amended`. -/
theorem c8_prompt_resolve_amended_witness :
    appendPromptResolve [demoDupResult] demoDupResult .newPlayer
        = ([demoDupResult] ++ [demoDupResult], .accepted)
      ∧ appendPromptResolve [demoDupResult] demoDupResult .samePlayer
        = ([demoDupResult], .duplicateSkipped) :=
  c8_prompt_resolve_amended [demoDupResult] demoDupResult (by decide)

/-! ### C9: normalization properties -/

/-- Stripping is right-dropping after left-dropping. -/
theorem pyStrip_rdrop (s : PyStr) :
    pyStrip s = List.rdropWhile pyIsSpace (List.dropWhile pyIsSpace s) := rfl

/-- A stripped string has no leading whitespace left to drop. -/
theorem dropWhile_pyStrip (s : PyStr) :
    List.dropWhile pyIsSpace (pyStrip s) = pyStrip s := by
  rw [pyStrip_rdrop]
  have hAfix : List.dropWhile pyIsSpace (List.dropWhile pyIsSpace s)
      = List.dropWhile pyIsSpace s := List.dropWhile_idempotent _ _
  rcases List.rdropWhile_prefix (p := pyIsSpace) (l := List.dropWhile pyIsSpace s)
    with ⟨u, hu⟩
  cases ht : List.rdropWhile pyIsSpace (List.dropWhile pyIsSpace s) with
  | nil => rfl
  | cons b t' =>
    rw [ht] at hu
    have hAcons : List.dropWhile pyIsSpace s = b :: (t' ++ u) := by
      rw [← hu]
      simp
    rw [hAcons, List.dropWhile_cons] at hAfix
    by_cases hpb : pyIsSpace b = true
    · rw [if_pos hpb] at hAfix
      have hle := (List.dropWhile_suffix (l := t' ++ u) pyIsSpace).length_le
      have := congrArg List.length hAfix
      simp only [List.length_cons] at this
      omega
    · rw [List.dropWhile_cons, if_neg hpb]

/-- Python stripping is idempotent. -/
theorem pyStrip_idem (s : PyStr) : pyStrip (pyStrip s) = pyStrip s := by
  rw [pyStrip_rdrop (pyStrip s), dropWhile_pyStrip, pyStrip_rdrop s]
  exact List.rdropWhile_idempotent _ _

/-- Uppercasing one character code is idempotent. -/
theorem pyUpperChar_idem (n : Nat) : pyUpperChar (pyUpperChar n) = pyUpperChar n := by
  unfold pyUpperChar
  split_ifs <;> omega

/-- Uppercasing never turns a character into or out of whitespace. -/
theorem pyIsSpace_pyUpperChar (n : Nat) : pyIsSpace (pyUpperChar n) = pyIsSpace n := by
  unfold pyUpperChar pyIsSpace
  split_ifs with h
  · rw [decide_eq_decide]
    omega
  · rfl

/-- Dropping whitespace commutes with uppercasing. -/
theorem dropWhile_pyUpper (l : PyStr) :
    List.dropWhile pyIsSpace (pyUpper l) = pyUpper (List.dropWhile pyIsSpace l) := by
  induction l with
  | nil => rfl
  | cons a t ih =>
    by_cases h : pyIsSpace a = true
    · simp only [pyUpper, List.map_cons, List.dropWhile_cons, pyIsSpace_pyUpperChar, h,
        if_true]
      exact ih
    · simp only [pyUpper, List.map_cons, List.dropWhile_cons, pyIsSpace_pyUpperChar, h]
      simp only [Bool.false_eq_true, if_false]
      rfl

/-- Stripping commutes with uppercasing. -/
theorem pyStrip_pyUpper (s : PyStr) : pyStrip (pyUpper s) = pyUpper (pyStrip s) := by
  unfold pyStrip
  rw [dropWhile_pyUpper]
  rw [show (pyUpper (List.dropWhile pyIsSpace s)).reverse
      = pyUpper (List.dropWhile pyIsSpace s).reverse from
    (List.map_reverse _ _).symm]
  rw [dropWhile_pyUpper]
  rw [show (pyUpper (List.dropWhile pyIsSpace (List.dropWhile pyIsSpace s).reverse)).reverse
      = pyUpper (List.dropWhile pyIsSpace (List.dropWhile pyIsSpace s).reverse).reverse from
    (List.map_reverse _ _).symm]

/-- Python uppercasing is idempotent. -/
theorem pyUpper_idem (s : PyStr) : pyUpper (pyUpper s) = pyUpper s := by
  unfold pyUpper
  rw [List.map_map]
  exact List.map_congr_left fun a _ => pyUpperChar_idem a

/-- Strip-then-uppercase is idempotent. -/
theorem cleanPos_idem (s : PyStr) :
    pyUpper (pyStrip (pyUpper (pyStrip s))) = pyUpper (pyStrip s) := by
  rw [pyStrip_pyUpper (pyStrip s), pyStrip_idem, pyUpper_idem]

/-- All synonym sets of `standardize_position`, concatenated. -/
def allSets : List PyStr :=
  lbSet ++ cbSet ++ retSet ++ olSet ++ dlSet ++ sSet ++ fbSet ++ teSet ++ kSet
    ++ pSet ++ wrSet ++ rbSet ++ qbSet

/-- The canonical codes `standardize_position` can produce from a synonym
set. -/
def canonCodes : List PyStr :=
  [strCodes "LB", strCodes "CB", strCodes "RET", strCodes "OL", strCodes "DL",
   strCodes "S", strCodes "FB", strCodes "TE", strCodes "K", strCodes "P",
   strCodes "WR", strCodes "RB", strCodes "QB"]

set_option maxHeartbeats 2000000 in
/-- Every canonical code is a fixed point of normalization. -/
theorem canon_fixed : ∀ c ∈ canonCodes, standardize_position c = c := by decide

/-- When the cleaned token belongs to no synonym set, normalization returns
the cleaned token itself. -/
theorem standardize_of_not_mem (s : PyStr) (h : pyUpper (pyStrip s) ∉ allSets) :
    standardize_position s = pyUpper (pyStrip s) := by
  have h1 : pyUpper (pyStrip s) ∉ lbSet := fun hx => h (by simp [allSets, hx])
  have h2 : pyUpper (pyStrip s) ∉ cbSet := fun hx => h (by simp [allSets, hx])
  have h3 : pyUpper (pyStrip s) ∉ retSet := fun hx => h (by simp [allSets, hx])
  have h4 : pyUpper (pyStrip s) ∉ olSet := fun hx => h (by simp [allSets, hx])
  have h5 : pyUpper (pyStrip s) ∉ dlSet := fun hx => h (by simp [allSets, hx])
  have h6 : pyUpper (pyStrip s) ∉ sSet := fun hx => h (by simp [allSets, hx])
  have h7 : pyUpper (pyStrip s) ∉ fbSet := fun hx => h (by simp [allSets, hx])
  have h8 : pyUpper (pyStrip s) ∉ teSet := fun hx => h (by simp [allSets, hx])
  have h9 : pyUpper (pyStrip s) ∉ kSet := fun hx => h (by simp [allSets, hx])
  have h10 : pyUpper (pyStrip s) ∉ pSet := fun hx => h (by simp [allSets, hx])
  have h11 : pyUpper (pyStrip s) ∉ wrSet := fun hx => h (by simp [allSets, hx])
  have h12 : pyUpper (pyStrip s) ∉ rbSet := fun hx => h (by simp [allSets, hx])
  have h13 : pyUpper (pyStrip s) ∉ qbSet := fun hx => h (by simp [allSets, hx])
  simp only [standardize_position]
  rw [if_neg h1, if_neg h2, if_neg h3, if_neg h4, if_neg h5, if_neg h6, if_neg h7,
    if_neg h8, if_neg h9, if_neg h10, if_neg h11, if_neg h12, if_neg h13]

/-- Normalizing the cleaned token gives the same answer as normalizing the
original: both branch on the same cleaned token. -/
theorem standardize_clean (s : PyStr) :
    standardize_position (pyUpper (pyStrip s)) = standardize_position s := by
  simp only [standardize_position]
  rw [cleanPos_idem]

/-- Normalization either produces a canonical code or passes the cleaned
token through. -/
theorem standardize_result (s : PyStr) :
    standardize_position s ∈ canonCodes ∨ standardize_position s = pyUpper (pyStrip s) := by
  simp only [standardize_position]
  by_cases h1 : pyUpper (pyStrip s) ∈ lbSet
  · rw [if_pos h1]; left; decide
  rw [if_neg h1]
  by_cases h2 : pyUpper (pyStrip s) ∈ cbSet
  · rw [if_pos h2]; left; decide
  rw [if_neg h2]
  by_cases h3 : pyUpper (pyStrip s) ∈ retSet
  · rw [if_pos h3]; left; decide
  rw [if_neg h3]
  by_cases h4 : pyUpper (pyStrip s) ∈ olSet
  · rw [if_pos h4]; left; decide
  rw [if_neg h4]
  by_cases h5 : pyUpper (pyStrip s) ∈ dlSet
  · rw [if_pos h5]; left; decide
  rw [if_neg h5]
  by_cases h6 : pyUpper (pyStrip s) ∈ sSet
  · rw [if_pos h6]; left; decide
  rw [if_neg h6]
  by_cases h7 : pyUpper (pyStrip s) ∈ fbSet
  · rw [if_pos h7]; left; decide
  rw [if_neg h7]
  by_cases h8 : pyUpper (pyStrip s) ∈ teSet
  · rw [if_pos h8]; left; decide
  rw [if_neg h8]
  by_cases h9 : pyUpper (pyStrip s) ∈ kSet
  · rw [if_pos h9]; left; decide
  rw [if_neg h9]
  by_cases h10 : pyUpper (pyStrip s) ∈ pSet
  · rw [if_pos h10]; left; decide
  rw [if_neg h10]
  by_cases h11 : pyUpper (pyStrip s) ∈ wrSet
  · rw [if_pos h11]; left; decide
  rw [if_neg h11]
  by_cases h12 : pyUpper (pyStrip s) ∈ rbSet
  · rw [if_pos h12]; left; decide
  rw [if_neg h12]
  by_cases h13 : pyUpper (pyStrip s) ∈ qbSet
  · rw [if_pos h13]; left; decide
  rw [if_neg h13]
  right
  rfl

/-- Normalization is idempotent. -/
theorem standardize_idem (s : PyStr) :
    standardize_position (standardize_position s) = standardize_position s := by
  rcases standardize_result s with h | h
  · exact canon_fixed _ h
  · rw [h, standardize_clean s]
    exact h

/-- C9: normalization is idempotent and case/whitespace-insensitive, and a
token in no synonym set is returned as itself, uppercased; the function is
total by construction. -/
theorem c9_normalization :
    (∀ s : PyStr, standardize_position (standardize_position s) = standardize_position s)
    ∧ standardize_position (strCodes " lb ") = standardize_position (strCodes "LB")
    ∧ (∀ s : PyStr, pyStrip s = s → pyUpper s ∉ allSets →
        standardize_position s = pyUpper s) := by
  refine ⟨standardize_idem, by decide, ?_⟩
  intro s hstrip hmem
  have h := standardize_of_not_mem s (by rw [hstrip]; exact hmem)
  rwa [hstrip] at h

/-- Concrete instantiation of `c9_normalization`. -/
theorem c9_normalization_witness :
    standardize_position (standardize_position (strCodes "olb"))
        = standardize_position (strCodes "olb")
      ∧ standardize_position (strCodes "XYZ") = pyUpper (strCodes "XYZ") := by
  exact ⟨c9_normalization.1 (strCodes "olb"),
    c9_normalization.2.2 (strCodes "XYZ") (by decide) (by decide)⟩

/-! ### C7: percent-strip at parse time -/

/-- Counterexample to C7 as stated: on the same percent-valued input the
ranking-pass conversion parses `50%` as the number 50, while the
window-averaging site, which never strips percent signs, fails on the
string-valued column instead of parsing it — the two call sites do not
behave identically. -/
theorem c7_percent_strip_counterexample :
    convCell (strCodes "50%") = some 50
    ∧ windowColMean [XCell.text (strCodes "50%")] = .error () := by
  constructor
  · decide
  · rfl

/-- C7 amended: the trailing-percent strip happens only at the ranking call
site, where it removes any trailing `%` before numeric parsing; at the
window-averaging call site values are used as numbers with missing cells
excluded from the mean and with no stripping, so a percent-valued string
cell makes the mean fail there rather than parse — the two call sites
diverge on percent-valued input. -/
theorem c7_percent_strip_amended :
    (∀ s : PyStr, convCell (s ++ [37]) = convCell s)
    ∧ (∀ cells : List XCell, cells.any isTextCell = false →
        windowColMean cells = .ok (pandasMean (cells.filterMap numOfCell)))
    ∧ windowColMean [XCell.text (strCodes "50%")] = .error ()
    ∧ convCell (strCodes "50%") = some 50 := by
  refine ⟨?_, ?_, rfl, ?_⟩
  · intro s
    unfold convCell pyRstripPct
    rw [List.reverse_append]
    simp [List.dropWhile]
  · intro cells h
    unfold windowColMean
    rw [h]
    rfl
  · decide

/-- Concrete instantiation of `c7_percent_strip_amended`. -/
theorem c7_percent_strip_amended_witness :
    convCell (strCodes "12.5" ++ [37]) = convCell (strCodes "12.5")
    ∧ windowColMean [XCell.num 1, XCell.blank]
        = .ok (pandasMean ([XCell.num 1, XCell.blank].filterMap numOfCell)) := by
  exact ⟨c7_percent_strip_amended.1 (strCodes "12.5"),
    c7_percent_strip_amended.2.1 [XCell.num 1, XCell.blank] (by decide)⟩

/-! ### C5: cross-position ranking -/

/-- Aggregate table of the two-player position: players Alice and Bob, one
stat column, difference values 10 and 20. -/
def tableA : AggTable :=
  ⟨[strCodes "Yds"],
   [⟨strCodes "Alice", strCodes "Group1", [strCodes "1"]⟩,
    ⟨strCodes "Alice", strCodes "Group2", [strCodes "2"]⟩,
    ⟨strCodes "Alice", strCodes "Difference", [strCodes "10"]⟩,
    ⟨strCodes "Bob", strCodes "Group1", [strCodes "3"]⟩,
    ⟨strCodes "Bob", strCodes "Group2", [strCodes "4"]⟩,
    ⟨strCodes "Bob", strCodes "Difference", [strCodes "20"]⟩]⟩

/-- Aggregate table of the one-player position: player Carol, difference
value 5. -/
def tableB : AggTable :=
  ⟨[strCodes "Yds"],
   [⟨strCodes "Carol", strCodes "Group1", [strCodes "7"]⟩,
    ⟨strCodes "Carol", strCodes "Group2", [strCodes "8"]⟩,
    ⟨strCodes "Carol", strCodes "Difference", [strCodes "5"]⟩]⟩

/-- A `Group1` row is not a difference row. -/
theorem isDiffRow_group1 (pl : PyStr) (cs : List PyStr) :
    isDiffRow ⟨pl, strCodes "Group1", cs⟩ = false := rfl

/-- A `Group2` row is not a difference row. -/
theorem isDiffRow_group2 (pl : PyStr) (cs : List PyStr) :
    isDiffRow ⟨pl, strCodes "Group2", cs⟩ = false := rfl

/-- A `Difference` row is a difference row. -/
theorem isDiffRow_difference (pl : PyStr) (cs : List PyStr) :
    isDiffRow ⟨pl, strCodes "Difference", cs⟩ = true := rfl

/-- The two-player table summarizes to player count 2, per-stat average 15
and overall average 15. -/
theorem process_tableA :
    process_aggregate_file tableA
      = some ⟨2, [(strCodes "Yds", some 15)], 15⟩ := by
  have h10 : convCell (strCodes "10") = some 10 := by decide
  have h20 : convCell (strCodes "20") = some 20 := by decide
  have hmean : pandasMean [(10 : ℚ), 20] = some 15 := by
    simp [pandasMean, List.sum_cons, List.sum_nil]
    norm_num
  simp only [process_aggregate_file, tableA, List.filter_cons, isDiffRow_group1,
    isDiffRow_group2, isDiffRow_difference, Bool.false_eq_true, if_false, if_true,
    List.filter_nil, mapOption, h10, h20]
  simp only [List.flatten, List.append_nil, List.singleton_append, hmean]
  simp [columnVals, List.range, List.range.loop, hmean]
  all_goals decide

/-- The one-player table summarizes to player count 1, per-stat average 5
and overall average 5. -/
theorem process_tableB :
    process_aggregate_file tableB
      = some ⟨1, [(strCodes "Yds", some 5)], 5⟩ := by
  have h5 : convCell (strCodes "5") = some 5 := by decide
  have hmean : pandasMean [(5 : ℚ)] = some 5 := by
    simp [pandasMean, List.sum_cons, List.sum_nil]
  simp only [process_aggregate_file, tableB, List.filter_cons, isDiffRow_group1,
    isDiffRow_group2, isDiffRow_difference, Bool.false_eq_true, if_false, if_true,
    List.filter_nil, mapOption, h5]
  simp only [List.flatten, List.append_nil, List.singleton_append, hmean]
  simp [columnVals, List.range, List.range.loop, hmean]

/-- C5: the ranking is ordered descending by the overall average
difference; every ranking entry is the processed summary of one of the
repositories, whose player count, per-stat averages and overall average
come from `process_aggregate_file`; adding a non-difference row to a table
changes only its distinct-player count, never the per-stat or overall
averages (which are computed from difference rows only); and position A
with differences 10 and 20 (player count 2) ranks before position B with
difference 5. -/
theorem c5_ranking :
    (∀ files : List (PyStr × AggTable),
        List.Sorted (fun a b : RankingEntry => b.overall ≤ a.overall) (rank files))
    ∧ (∀ files : List (PyStr × AggTable), ∀ e ∈ rank files, ∃ p t, (p, t) ∈ files ∧
        process_aggregate_file t = some ⟨e.playerCount, e.avgPerStat, e.overall⟩
          ∧ e.position = p)
    ∧ (∀ (t : AggTable) (r : AggRow), isDiffRow r = false →
        process_aggregate_file ⟨t.statNames, t.rows ++ [r]⟩
          = (process_aggregate_file t).map
              (fun s => ⟨((t.rows ++ [r]).map (fun x => x.player)).dedup.length,
                s.avgPerStat, s.overall⟩))
    ∧ rank [(strCodes "A", tableA), (strCodes "B", tableB)]
        = [⟨strCodes "A", 2, [(strCodes "Yds", some 15)], 15⟩,
           ⟨strCodes "B", 1, [(strCodes "Yds", some 5)], 5⟩] := by
  refine ⟨?_, ?_, ?_, ?_⟩
  · intro files
    haveI : IsTotal RankingEntry (fun a b => b.overall ≤ a.overall) :=
      ⟨fun a b => le_total b.overall a.overall⟩
    haveI : IsTrans RankingEntry (fun a b => b.overall ≤ a.overall) :=
      ⟨fun a b c h1 h2 => le_trans h2 h1⟩
    exact List.sorted_insertionSort _ _
  · intro files e he
    have he2 : e ∈ files.filterMap (fun pt =>
        (process_aggregate_file pt.2).map
          (fun s => ⟨pt.1, s.numPlayers, s.avgPerStat, s.overall⟩)) :=
      (List.mem_insertionSort _).1 he
    rcases List.mem_filterMap.1 he2 with ⟨pt, hpt, hmap⟩
    rcases Option.map_eq_some'.1 hmap with ⟨s, hproc, hfe⟩
    subst hfe
    exact ⟨pt.1, pt.2, hpt, hproc, rfl⟩
  · intro t r h
    simp only [process_aggregate_file, List.filter_append, List.filter_cons, h,
      Bool.false_eq_true, if_false, List.filter_nil, List.append_nil]
    cases hm : mapOption (fun r => mapOption convCell r.cells) (t.rows.filter isDiffRow) with
    | none => simp
    | some vals =>
      cases hmean : pandasMean vals.flatten with
      | none => simp [hmean]
      | some ov => simp [hmean]
  · have hA := process_tableA
    have hB := process_tableB
    simp only [rank, List.filterMap_cons, List.filterMap_nil, hA, hB, Option.map_some]
    simp only [List.insertionSort, List.orderedInsert]
    rw [if_pos (by norm_num)]

/-- The first ranking entry of the two-repository example. -/
def entryA : RankingEntry := ⟨strCodes "A", 2, [(strCodes "Yds", some 15)], 15⟩

/-- A non-difference row appended to repository B's table. -/
def rowDave : AggRow := ⟨strCodes "Dave", strCodes "Group1", [strCodes "9"]⟩

/-- Concrete instantiation of `c5_ranking`: the first ranking entry of the
two-repository example is the processed summary of repository A, and
appending a `Group1` row to repository B's table leaves its averages
unchanged. -/
theorem c5_ranking_witness :
    (∃ p t, (p, t) ∈ [(strCodes "A", tableA), (strCodes "B", tableB)] ∧
        process_aggregate_file t
            = some ⟨entryA.playerCount, entryA.avgPerStat, entryA.overall⟩
          ∧ entryA.position = p)
    ∧ process_aggregate_file ⟨tableB.statNames, tableB.rows ++ [rowDave]⟩
        = (process_aggregate_file tableB).map
            (fun s => ⟨((tableB.rows ++ [rowDave]).map (fun x => x.player)).dedup.length,
              s.avgPerStat, s.overall⟩) := by
  constructor
  · refine c5_ranking.2.1 [(strCodes "A", tableA), (strCodes "B", tableB)] entryA ?_
    rw [c5_ranking.2.2.2]
    exact List.mem_cons_self _ _
  · exact c5_ranking.2.2.1 tableB rowDave (isDiffRow_group1 _ _)

end NFLStats
